import Mathlib

/-!
Verification of the voice-input subsystem (`VoiceInputManager`) of the
MSME negotiation frontend.  The JavaScript source is shallowly embedded:
pure string normalizers become Lean functions on `String` / `List Char`,
the recording controller becomes an explicit state machine, and the
fallback MediaRecorder path becomes a timed trace semantics.
-/

/-! ## Character and list utilities -/

/-- Whitespace characters recognized by the JavaScript regex class
backslash-s (ASCII part: space, tab, LF, VT, FF, CR). -/
def isWs (c : Char) : Bool :=
  c == ' ' || c == '\t' || c == '\n' || c == '\r' || c.toNat == 11 || c.toNat == 12

/-- Numeric value of a decimal digit character. -/
def digitVal (c : Char) : Nat := c.toNat - 48

/-- JavaScript `toLowerCase` (character-wise ASCII case folding),
defined on the character list so that it computes by kernel reduction. -/
def lowerStr (s : String) : String := String.mk (s.data.map Char.toLower)

/-- JavaScript `parseInt` on a string of decimal digits. -/
def parseDigits (ds : List Char) : Nat :=
  ds.foldl (fun a c => a * 10 + digitVal c) 0

/-- Case-insensitive prefix test: the keyword `k` is a prefix of `cs`
up to ASCII case folding (the `/i` regex flag). -/
def isKwPrefixCI : List Char → List Char → Bool
  | [], _ => true
  | _ :: _, [] => false
  | k :: ks, c :: cs => (k.toLower == c.toLower) && isKwPrefixCI ks cs

/-- JavaScript `String.prototype.includes`: `needle` occurs contiguously
inside `hay`. -/
def containsSub (hay needle : List Char) : Bool :=
  (List.range (hay.length + 1)).any (fun i => needle.isPrefixOf (hay.drop i))

/-! ## Amount normalizer (`_extractAmount`, part_000 lines 181-195)

The source tries the regexes `(\d+)\s*(lakh|lac)/i`, `(\d+)\s*crore/i`,
`(\d+)\s*thousand/i` in that order (leftmost match, greedy digits), then
falls back to stripping non-digits.  Because the digit class, the
whitespace class and the keyword letters are disjoint, the greedy
left-to-right scan below is exactly the regex's leftmost-match semantics. -/

/-- Attempt the regex `(\d+)\s*kw` anchored at the start of `cs`,
returning the captured digit run. -/
def matchNumKwAt (kws : List (List Char)) (cs : List Char) : Option (List Char) :=
  match cs.takeWhile Char.isDigit with
  | [] => none
  | d :: ds =>
    if kws.any (fun kw => isKwPrefixCI kw ((cs.dropWhile Char.isDigit).dropWhile isWs))
    then some (d :: ds) else none

/-- Leftmost match of `(\d+)\s*kw` in the text, as `parseInt` of the
captured digits. -/
def findNumKw (kws : List (List Char)) : List Char → Option Nat
  | [] => none
  | c :: cs =>
    match matchNumKwAt kws (c :: cs) with
    | some ds => some (parseDigits ds)
    | none => findNumKw kws cs

/-- Keywords of the first amount pattern: `lakh` or `lac`. -/
def lakhKws : List (List Char) := ["lakh".toList, "lac".toList]

/-- Keyword of the second amount pattern. -/
def croreKws : List (List Char) := ["crore".toList]

/-- Keyword of the third amount pattern. -/
def thousandKws : List (List Char) := ["thousand".toList]

/-- `_extractAmount` from the source: three regexes in order, then the
digit-stripping fallback, then the original text. -/
def _extractAmount (s : String) : String :=
  match findNumKw lakhKws s.data with
  | some n => Nat.repr (n * 100000)
  | none =>
    match findNumKw croreKws s.data with
    | some n => Nat.repr (n * 10000000)
    | none =>
      match findNumKw thousandKws s.data with
      | some n => Nat.repr (n * 1000)
      | none =>
        let ds := s.data.filter Char.isDigit
        if ds = [] then s else String.mk ds

/-! ## DayCount normalizer (`_textToNumber`, part_000 lines 197-233) -/

/-- The source's `numberWords` table, in its literal order. -/
def numberWords : List (String × Nat) :=
  [("zero", 0), ("one", 1), ("two", 2), ("three", 3), ("four", 4), ("five", 5),
   ("six", 6), ("seven", 7), ("eight", 8), ("nine", 9), ("ten", 10),
   ("eleven", 11), ("twelve", 12), ("thirteen", 13), ("fourteen", 14), ("fifteen", 15),
   ("sixteen", 16), ("seventeen", 17), ("eighteen", 18), ("nineteen", 19),
   ("twenty", 20), ("thirty", 30), ("forty", 40), ("fifty", 50),
   ("sixty", 60), ("seventy", 70), ("eighty", 80), ("ninety", 90), ("hundred", 100),
   ("thousand", 1000)]

/-- Table lookup (`numberWords[word]`). -/
def wordLookup (w : List Char) : Option Nat :=
  (numberWords.find? (fun p => p.1 == String.mk w)).map (fun p => p.2)

/-- Collapse each whitespace run to a single space; used to model the
JavaScript regex split on backslash-s-plus. -/
def collapseWs : List Char → Bool → List Char
  | [], _ => []
  | c :: cs, prevWs =>
    if isWs c then
      (if prevWs then collapseWs cs true else ' ' :: collapseWs cs true)
    else c :: collapseWs cs false

/-- JavaScript `split(' ')`: split on every single space character,
keeping empty pieces. -/
def splitOnSpace : List Char → List (List Char)
  | [] => [[]]
  | c :: cs =>
    if c = ' ' then [] :: splitOnSpace cs
    else
      match splitOnSpace cs with
      | [] => [[c]]
      | t :: ts => (c :: t) :: ts

/-- JavaScript `split` on the whitespace-run regex (keeps empty pieces at
the ends, exactly as the platform does). -/
def splitWs (l : List Char) : List (List Char) :=
  splitOnSpace (collapseWs l false)

/-- One iteration of the source's `forEach` body: digit extraction first,
then the word table with the `hundred`/`thousand` multiplier cases. -/
def textToNumberStep (cur : Nat) (w : List Char) : Nat :=
  let ds := w.filter Char.isDigit
  if ds = [] then
    match wordLookup w with
    | some v =>
      if String.mk w = "hundred" then (if cur = 0 then 1 else cur) * 100
      else if String.mk w = "thousand" then (if cur = 0 then 1 else cur) * 1000
      else cur + v
    | none => cur
  else cur + parseDigits ds

/-- The accumulated total of `_textToNumber` on a text. -/
def foldTotal (s : String) : Nat :=
  (splitWs (lowerStr s).data).foldl textToNumberStep 0

/-- `_textToNumber` from the source: lower-case, split on whitespace,
fold the accumulator, return it as a string when positive. -/
def _textToNumber (s : String) : String :=
  let total := foldTotal s
  if total > 0 then Nat.repr total else s

/-! ## DisputeType classifier (`_mapDisputeType`, part_000 lines 235-260) -/

/-- The source's keyword-to-category table, in its literal order. -/
def mappings : List (String × String) :=
  [("goods", "goods_rejection"),
   ("quality", "goods_rejection"),
   ("reject", "goods_rejection"),
   ("defective", "goods_rejection"),
   ("service", "service_non_payment"),
   ("work", "service_non_payment"),
   ("labor", "service_non_payment"),
   ("invoice", "invoice_non_payment"),
   ("bill", "invoice_non_payment"),
   ("payment", "invoice_non_payment"),
   ("short", "short_payment"),
   ("partial", "short_payment"),
   ("less", "short_payment"),
   ("interest", "interest_on_delay"),
   ("delay", "interest_on_delay"),
   ("late", "interest_on_delay"),
   ("penalty", "interest_on_delay")]

/-- The source's `for … of Object.entries(mappings)` loop. -/
def disputeGo : List (String × String) → String → String
  | [], _ => "others"
  | (kw, ty) :: rest, t =>
    if containsSub t.data kw.data then ty else disputeGo rest t

/-- `_mapDisputeType` from the source (the caller passes lower-cased text). -/
def _mapDisputeType (t : String) : String := disputeGo mappings t

/-! ## Jurisdiction normalizer (`_extractState`, part_000 lines 262-280) -/

/-- The source's fixed list of Indian state and union-territory names. -/
def states : List String :=
  ["andhra pradesh", "arunachal pradesh", "assam", "bihar", "chhattisgarh",
   "goa", "gujarat", "haryana", "himachal pradesh", "jharkhand",
   "karnataka", "kerala", "madhya pradesh", "maharashtra", "manipur",
   "meghalaya", "mizoram", "nagaland", "odisha", "punjab",
   "rajasthan", "sikkim", "tamil nadu", "telangana", "tripura",
   "uttar pradesh", "uttarakhand", "west bengal",
   "delhi", "chandigarh", "puducherry", "jammu and kashmir", "ladakh"]

/-- JavaScript `w.charAt(0).toUpperCase() + w.slice(1)`. -/
def capWord : List Char → List Char
  | [] => []
  | c :: cs => c.toUpper :: cs

/-- The source's title-casing: split on single spaces, capitalize each
word's first letter, join with single spaces. -/
def titleCase (w : List Char) : List Char :=
  List.intercalate [' '] ((splitOnSpace w).map capWord)

/-- The source's `for … of states` loop. -/
def stateGo : List String → String → String
  | [], t => t
  | st :: rest, t =>
    if containsSub (lowerStr t).data st.data then String.mk (titleCase st.data)
    else stateGo rest t

/-- `_extractState` from the source. -/
def _extractState (t : String) : String := stateGo states t

/-! ## Target field model and `_processTranscript` (part_000 lines 122-179)

A form field is modelled by its committed string value, whether it is a
`<select>` element, its option list (value, label text), its
`selectedIndex`, and the ordered log of DOM events dispatched on it. -/

/-- A target form field. -/
structure Fld where
  value : String
  isSelect : Bool
  options : List (String × String)
  selectedIndex : Int
  events : List String
deriving DecidableEq

/-- The field semantic types dispatched on by `_processTranscript`. -/
inductive FieldType where
  | amount | days | disputeType | jurisdiction | select | fullCase
deriving DecidableEq

/-- First option (with its index) satisfying a predicate — the source's
`for (let i = 0; i < options.length; i++) … break` loops. -/
def findOpt (p : String × String → Bool) : List (String × String) → Nat → Option (Nat × (String × String))
  | [], _ => none
  | o :: rest, i => if p o then some (i, o) else findOpt p rest (i + 1)

/-- `_processTranscript` from the source: returns the normalized string
and the (possibly selection-updated) field. -/
def _processTranscript (text : String) (ft : FieldType) (f : Fld) : String × Fld :=
  match ft with
  | .amount => (_extractAmount text, f)
  | .days => (_textToNumber text, f)
  | .disputeType =>
    let mapped := _mapDisputeType (lowerStr text)
    if f.isSelect then
      match findOpt (fun o => o.1 == mapped) f.options 0 with
      | some (i, _) =>
        (mapped, { f with selectedIndex := Int.ofNat i, events := f.events ++ ["change"] })
      | none => (mapped, f)
    else (mapped, f)
  | .jurisdiction =>
    let st := _extractState text
    if f.isSelect then
      match findOpt (fun o => containsSub (lowerStr o.1).data (lowerStr st).data) f.options 0 with
      | some (i, _) =>
        (st, { f with selectedIndex := Int.ofNat i, events := f.events ++ ["change"] })
      | none => (st, f)
    else (st, f)
  | .select =>
    if f.isSelect then
      match findOpt
          (fun o =>
            containsSub (lowerStr o.2).data (lowerStr text).data ||
            containsSub (lowerStr o.1).data (lowerStr text).data)
          f.options 0 with
      | some (i, o) =>
        (o.1, { f with selectedIndex := Int.ofNat i, events := f.events ++ ["change"] })
      | none => (text, f)
    else (text, f)
  | .fullCase => (text, f)

/-- The Live path's final-result commit (part_000 lines 72-78): process,
write the value, dispatch `input` then `change`. -/
def liveFinalCommit (t : String) (ft : FieldType) (f : Fld) : Fld :=
  let r := _processTranscript t ft f
  { r.2 with value := r.1, events := r.2.events ++ ["input", "change"] }

/-- The Fallback path's commit on a `{ text }` upload response
(part_000 lines 333-339): process, write the value, dispatch `input`. -/
def fallbackTextCommit (t : String) (ft : FieldType) (f : Fld) : Fld :=
  let r := _processTranscript t ft f
  { r.2 with value := r.1, events := r.2.events ++ ["input"] }

/-! ## Session controller (part_000 lines 6-120)

State of the `VoiceInputManager` object as it concerns recording:
the `isRecording` flag, the capability flags fixed by the constructor,
the current target field, the set of mic buttons carrying the
`recording` CSS class, and the log of toasts shown to the user. -/

/-- Controller state. -/
structure MgrState where
  isRecording : Bool
  fallbackMode : Bool
  hasRecognition : Bool
  targetField : Option String
  recordingMarks : List String
  toasts : List (String × String)
deriving DecidableEq

/-- `stopRecording`: clear the flag and strip the `recording` class from
every mic button (the engine's own `stop` is external and caught). -/
def stopRecording (s : MgrState) : MgrState :=
  { s with isRecording := false, recordingMarks := [] }

/-- The error-code-to-message mapping of the `onerror` handler
(part_000 lines 83-89). -/
def errMsgFor (code : String) : String :=
  if code = "not-allowed" then "🔇 Microphone access denied. Please allow in browser settings."
  else if code = "no-speech" then "🔇 No speech detected. Try again."
  else if code = "network" then "🌐 Network error. Check connection."
  else "Voice input error."

/-- The `onerror` handler: show the mapped toast, then `stopRecording`. -/
def handleError (code : String) (s : MgrState) : MgrState :=
  stopRecording { s with toasts := s.toasts ++ [(errMsgFor code, "error")] }

/-- `startRecording(fieldId, fieldType)`.  `engineOk` models whether the
live engine's `start()` call throws; `acquireOk` models whether
`getUserMedia` resolves in the fallback path. -/
def startRecording (engineOk acquireOk : Bool) (fieldId : String) (s : MgrState) : MgrState :=
  if s.isRecording then stopRecording s
  else if s.fallbackMode then
    if acquireOk then
      { s with isRecording := true,
               recordingMarks := fieldId :: s.recordingMarks,
               toasts := s.toasts ++ [("🎤 Recording… (max 10s)", "info")] }
    else
      stopRecording
        { s with toasts := s.toasts ++
            [("🔇 Microphone access denied. Please allow or type manually.", "error")] }
  else if s.hasRecognition = false then
    { s with toasts := s.toasts ++ [("Voice input not supported. Use text entry.", "error")] }
  else
    let s1 := { s with targetField := some fieldId, isRecording := true,
                       recordingMarks := fieldId :: s.recordingMarks,
                       toasts := s.toasts ++ [("🎤 Listening…", "info")] }
    if engineOk then s1 else stopRecording s1

/-- Constructor state: live mode when the platform exposes a speech
recognition capability, fallback mode otherwise. -/
def mkInit (supported : Bool) : MgrState :=
  { isRecording := false, fallbackMode := !supported, hasRecognition := supported,
    targetField := none, recordingMarks := [], toasts := [] }

/-- Events the controller reacts to. -/
inductive Ev where
  | start (engineOk acquireOk : Bool) (fieldId : String)
  | stop
  | error (code : String)
  | ended
  | result (transcript : String) (isFinal : Bool)

/-- One controller transition. -/
def step (e : Ev) (s : MgrState) : MgrState :=
  match e with
  | .start eo ao f => startRecording eo ao f s
  | .stop => stopRecording s
  | .error c => handleError c s
  | .ended => stopRecording s
  | .result t fin =>
    if fin then { s with toasts := s.toasts ++ [("✅ Captured: \"" ++ t ++ "\"", "success")] }
    else s

/-- States reachable from a constructor state under any event sequence. -/
inductive Reachable : MgrState → Prop where
  | init (b : Bool) : Reachable (mkInit b)
  | tr (e : Ev) {s : MgrState} : Reachable s → Reachable (step e s)

/-! ## Fallback recorder, timed trace semantics (part_000 lines 283-320)

Each successful `startFallbackRecording` creates a fresh `MediaRecorder`
(identified by its creation index), stores it in the manager's single
`mediaRecorder` slot, and schedules a `setTimeout` 10000 ms out.  The
timer callback reads the slot at fire time and stops whatever recorder
is there if it is still recording; that recorder's `onstop` then stops
its stream tracks and calls `stopRecording`.  Manual stops (a second
click while `isRecording`) only run `stopRecording`, which never touches
the recorder. -/

/-- One `MediaRecorder` and its stream: whether it is still recording,
and how many times its tracks have been stopped. -/
structure FbRec where
  recording : Bool
  tracksStopped : Nat
deriving DecidableEq

/-- Fallback-mode manager state: current time, trace-validity flag,
`isRecording`, the `mediaRecorder` slot, all recorders ever created, and
the fire times of pending timers. -/
structure FbState where
  now : Nat
  valid : Bool
  isRecording : Bool
  slot : Option Nat
  recs : List FbRec
  pending : List Nat
deriving DecidableEq

/-- Fallback-mode events: a mic click (which starts, or toggle-stops,
a capture) and the firing of a scheduled timer. -/
inductive FbEv where
  | click (acquireOk : Bool)
  | timerFire
deriving DecidableEq

/-- An event at time `t` is admissible when time is monotone and no
scheduled timer is overdue. -/
def fbTimeOk (s : FbState) (t : Nat) : Bool :=
  decide (s.now ≤ t) && s.pending.all (fun p => decide (t ≤ p))

/-- Stop recorder `i` and its tracks (its `onstop` body). -/
def fbStopRecAt (recs : List FbRec) (i : Nat) : List FbRec :=
  match recs.get? i with
  | some r => recs.set i { recording := false, tracksStopped := r.tracksStopped + 1 }
  | none => recs

/-- One fallback transition. -/
def fbStep (s : FbState) (te : Nat × FbEv) : FbState :=
  let t := te.1
  let ok := s.valid && fbTimeOk s t
  match te.2 with
  | .click acquireOk =>
    if s.isRecording then
      { s with now := t, valid := ok, isRecording := false }
    else if acquireOk then
      { s with now := t, valid := ok, isRecording := true,
               slot := some s.recs.length,
               recs := s.recs ++ [{ recording := true, tracksStopped := 0 }],
               pending := s.pending ++ [t + 10000] }
    else
      { s with now := t, valid := ok, isRecording := false }
  | .timerFire =>
    let s1 := { s with now := t, valid := ok && s.pending.contains t,
                       pending := s.pending.erase t }
    match s.slot with
    | some i =>
      match s.recs.get? i with
      | some r =>
        if r.recording then
          { s1 with recs := fbStopRecAt s.recs i, isRecording := false }
        else s1
      | none => s1
    | none => s1

/-- Initial fallback-mode state. -/
def fbInit : FbState :=
  { now := 0, valid := true, isRecording := false, slot := none, recs := [], pending := [] }

/-- Run a timed trace. -/
def fbRun (tr : List (Nat × FbEv)) : FbState := tr.foldl fbStep fbInit

/-- The overlapping-session trace: start a capture at t=0, toggle-stop it
at t=3000 (which does not stop the recorder), start a second capture at
t=4000; the first session's timer fires at t=10000 and stops the second
recorder (the slot at fire time), the second session's timer at t=14000
finds its recorder already inactive. -/
def leakTrace : List (Nat × FbEv) :=
  [(0, .click true), (3000, .click true), (4000, .click true),
   (10000, .timerFire), (14000, .timerFire)]

/-! ## Lemmas about the regex scan -/

/-- `takeWhile` runs through a block that wholly satisfies the predicate
and stops at the first failing character. -/
theorem takeWhile_all_append (p : Char → Bool) (l : List Char)
    (h : ∀ c ∈ l, p c = true) (c : Char) (hc : p c = false) (rest : List Char) :
    (l ++ c :: rest).takeWhile p = l := by
  induction l with
  | nil => simp [List.takeWhile, hc]
  | cons a as ih =>
    have ha : p a = true := h a (List.mem_cons_self a as)
    simp only [List.cons_append, List.takeWhile, ha]
    exact congrArg (a :: ·) (ih (fun x hx => h x (List.mem_cons_of_mem a hx)))

/-- `dropWhile` drops a block that wholly satisfies the predicate and
stops at the first failing character. -/
theorem dropWhile_all_append (p : Char → Bool) (l : List Char)
    (h : ∀ c ∈ l, p c = true) (c : Char) (hc : p c = false) (rest : List Char) :
    (l ++ c :: rest).dropWhile p = c :: rest := by
  induction l with
  | nil => simp [List.dropWhile, hc]
  | cons a as ih =>
    have ha : p a = true := h a (List.mem_cons_self a as)
    simp only [List.cons_append, List.dropWhile, ha]
    exact ih (fun x hx => h x (List.mem_cons_of_mem a hx))

/-- Shape of an anchored match on `digits ++ ' ' ++ w`. -/
theorem matchNumKwAt_digits_space (kws : List (List Char)) (ds w : List Char)
    (hne : ds ≠ []) (hds : ∀ c ∈ ds, c.isDigit = true) :
    matchNumKwAt kws (ds ++ ' ' :: w) =
      (if kws.any (fun kw => isKwPrefixCI kw (w.dropWhile isWs)) then some ds else none) := by
  obtain ⟨d, ds', rfl⟩ := List.exists_cons_of_ne_nil hne
  have hsp : Char.isDigit ' ' = false := by decide
  have h1 : ((d :: ds') ++ ' ' :: w).takeWhile Char.isDigit = d :: ds' :=
    takeWhile_all_append _ _ hds _ hsp _
  have h2 : ((d :: ds') ++ ' ' :: w).dropWhile Char.isDigit = ' ' :: w :=
    dropWhile_all_append _ _ hds _ hsp _
  have h3 : (' ' :: w).dropWhile isWs = w.dropWhile isWs := by
    simp [List.dropWhile, isWs]
  unfold matchNumKwAt
  rw [h1, h2, h3]

/-- The scan fails on a text with no digit character at all. -/
theorem findNumKw_none_of_no_digits (kws : List (List Char)) (l : List Char)
    (h : ∀ c ∈ l, c.isDigit = false) : findNumKw kws l = none := by
  induction l with
  | nil => rfl
  | cons c cs ih =>
    have hc : Char.isDigit c = false := h c (List.mem_cons_self c cs)
    have hm : matchNumKwAt kws (c :: cs) = none := by
      unfold matchNumKwAt
      simp [List.takeWhile, hc]
    unfold findNumKw
    rw [hm]
    exact ih (fun x hx => h x (List.mem_cons_of_mem c hx))

/-- The scan on `digits ++ ' ' ++ w` fails everywhere when the keyword
test fails and `w` itself has no digits. -/
theorem findNumKw_digits_space_none (kws : List (List Char)) (ds w : List Char)
    (hds : ∀ c ∈ ds, c.isDigit = true)
    (hw : ∀ c ∈ (' ' :: w), c.isDigit = false)
    (hpref : kws.any (fun kw => isKwPrefixCI kw (w.dropWhile isWs)) = false) :
    findNumKw kws (ds ++ ' ' :: w) = none := by
  induction ds with
  | nil => exact findNumKw_none_of_no_digits kws (' ' :: w) hw
  | cons d ds' ih =>
    have hmm : matchNumKwAt kws ((d :: ds') ++ ' ' :: w) = none := by
      rw [matchNumKwAt_digits_space kws (d :: ds') w (by simp) hds, hpref]
      simp
    show findNumKw kws (d :: (ds' ++ ' ' :: w)) = none
    unfold findNumKw
    rw [show d :: (ds' ++ ' ' :: w) = (d :: ds') ++ ' ' :: w from rfl, hmm]
    exact ih (fun x hx => hds x (List.mem_cons_of_mem d hx))

/-- The scan on `digits ++ ' ' ++ w` succeeds at position 0 and captures
exactly the digit run when the keyword test succeeds. -/
theorem findNumKw_digits_space_some (kws : List (List Char)) (ds w : List Char)
    (hne : ds ≠ []) (hds : ∀ c ∈ ds, c.isDigit = true)
    (hpref : kws.any (fun kw => isKwPrefixCI kw (w.dropWhile isWs)) = true) :
    findNumKw kws (ds ++ ' ' :: w) = some (parseDigits ds) := by
  obtain ⟨d, ds', rfl⟩ := List.exists_cons_of_ne_nil hne
  have hmm : matchNumKwAt kws ((d :: ds') ++ ' ' :: w) = some (d :: ds') := by
    rw [matchNumKwAt_digits_space kws (d :: ds') w (by simp) hds, hpref]
    simp
  show findNumKw kws (d :: (ds' ++ ' ' :: w)) = some (parseDigits (d :: ds'))
  unfold findNumKw
  rw [show d :: (ds' ++ ' ' :: w) = (d :: ds') ++ ' ' :: w from rfl, hmm]

/-- A list with no digit characters filters to nothing under `isDigit`. -/
theorem filter_digits_nil (l : List Char) (h : ∀ c ∈ l, c.isDigit = false) :
    l.filter Char.isDigit = [] := by
  induction l with
  | nil => rfl
  | cons c cs ih =>
    have hc : Char.isDigit c = false := h c (List.mem_cons_self c cs)
    simp [List.filter, hc, ih (fun x hx => h x (List.mem_cons_of_mem c hx))]

/-- C1: `_extractAmount` maps `<integer> lakh|lac` to the integer times
100000, `<integer> crore` to times 10000000, `<integer> thousand` to
times 1000, the three patterns checked in that order with the first
match winning (witnessed by the mixed input, where the lakh pattern wins
over the textually earlier crore); otherwise it returns the string of
all digit characters of the text in order, and, when the text contains
no digits at all, the original text unchanged. -/
theorem extractAmount_spec :
    (∀ ds : List Char, ds ≠ [] → (∀ c ∈ ds, c.isDigit = true) →
       _extractAmount (String.mk (ds ++ ' ' :: "lakh".toList)) = Nat.repr (parseDigits ds * 100000))
  ∧ (∀ ds : List Char, ds ≠ [] → (∀ c ∈ ds, c.isDigit = true) →
       _extractAmount (String.mk (ds ++ ' ' :: "crore".toList)) = Nat.repr (parseDigits ds * 10000000))
  ∧ (∀ ds : List Char, ds ≠ [] → (∀ c ∈ ds, c.isDigit = true) →
       _extractAmount (String.mk (ds ++ ' ' :: "thousand".toList)) = Nat.repr (parseDigits ds * 1000))
  ∧ _extractAmount "2 crore 3 lakh" = "300000"
  ∧ (∀ s : String, findNumKw lakhKws s.data = none → findNumKw croreKws s.data = none →
       findNumKw thousandKws s.data = none → s.data.filter Char.isDigit ≠ [] →
       _extractAmount s = String.mk (s.data.filter Char.isDigit))
  ∧ (∀ s : String, (∀ c ∈ s.data, c.isDigit = false) → _extractAmount s = s) := by
  refine ⟨?_, ?_, ?_, by decide, ?_, ?_⟩
  · intro ds hne hds
    unfold _extractAmount
    rw [show (String.mk (ds ++ ' ' :: "lakh".toList)).data = ds ++ ' ' :: "lakh".toList from rfl,
        findNumKw_digits_space_some lakhKws ds "lakh".toList hne hds (by decide)]
  · intro ds hne hds
    unfold _extractAmount
    rw [show (String.mk (ds ++ ' ' :: "crore".toList)).data = ds ++ ' ' :: "crore".toList from rfl,
        findNumKw_digits_space_none lakhKws ds "crore".toList hds (by decide) (by decide),
        findNumKw_digits_space_some croreKws ds "crore".toList hne hds (by decide)]
  · intro ds hne hds
    unfold _extractAmount
    rw [show (String.mk (ds ++ ' ' :: "thousand".toList)).data = ds ++ ' ' :: "thousand".toList from rfl,
        findNumKw_digits_space_none lakhKws ds "thousand".toList hds (by decide) (by decide),
        findNumKw_digits_space_none croreKws ds "thousand".toList hds (by decide) (by decide),
        findNumKw_digits_space_some thousandKws ds "thousand".toList hne hds (by decide)]
  · intro s h1 h2 h3 h4
    unfold _extractAmount
    rw [h1, h2, h3]
    simp [h4]
  · intro s h
    unfold _extractAmount
    rw [findNumKw_none_of_no_digits lakhKws s.data h,
        findNumKw_none_of_no_digits croreKws s.data h,
        findNumKw_none_of_no_digits thousandKws s.data h]
    simp [filter_digits_nil s.data h]

/-- Concrete instantiation of `extractAmount_spec`: the lakh clause at
the digit string `5` and the no-digit clause at `hello`. -/
theorem extractAmount_spec_witness :
    _extractAmount (String.mk (['5'] ++ ' ' :: "lakh".toList)) = Nat.repr (parseDigits ['5'] * 100000)
  ∧ _extractAmount "hello" = "hello" :=
  ⟨extractAmount_spec.1 ['5'] (by decide) (by decide),
   extractAmount_spec.2.2.2.2.2 "hello" (by decide)⟩

/-- C2: `_textToNumber` tokenizes on whitespace and folds one running
accumulator: a token containing digits adds its extracted digit value;
`hundred` replaces the accumulator with (accumulator, or 1 if zero)
times 100; `thousand` multiplies likewise by 1000; any other table word
adds its value; unknown words are ignored.  The result is the
accumulator as a string when positive, else the original text; the
function is pure. -/
theorem textToNumber_spec :
    (∀ (cur : Nat) (w : List Char), w.filter Char.isDigit ≠ [] →
       textToNumberStep cur w = cur + parseDigits (w.filter Char.isDigit))
  ∧ (∀ cur : Nat, textToNumberStep cur ("hundred".toList) = (if cur = 0 then 1 else cur) * 100)
  ∧ (∀ cur : Nat, textToNumberStep cur ("thousand".toList) = (if cur = 0 then 1 else cur) * 1000)
  ∧ (∀ (cur v : Nat) (w : List Char), w.filter Char.isDigit = [] →
       wordLookup w = some v → String.mk w ≠ "hundred" → String.mk w ≠ "thousand" →
       textToNumberStep cur w = cur + v)
  ∧ (∀ (cur : Nat) (w : List Char), w.filter Char.isDigit = [] →
       wordLookup w = none → textToNumberStep cur w = cur)
  ∧ (∀ s : String, 0 < foldTotal s → _textToNumber s = Nat.repr (foldTotal s))
  ∧ (∀ s : String, foldTotal s = 0 → _textToNumber s = s)
  ∧ _textToNumber "twenty five" = "25"
  ∧ _textToNumber "hundred" = "100"
  ∧ (∀ s : String, _textToNumber s = _textToNumber s) := by
  refine ⟨?_, ?_, ?_, ?_, ?_, ?_, ?_, by decide, by decide, fun s => rfl⟩
  · intro cur w h
    unfold textToNumberStep
    simp [h]
  · intro cur
    rfl
  · intro cur
    rfl
  · intro cur v w h1 h2 h3 h4
    unfold textToNumberStep
    simp [h1, h2, h3, h4]
  · intro cur w h1 h2
    unfold textToNumberStep
    simp [h1, h2]
  · intro s h
    unfold _textToNumber
    simp [h]
  · intro s h
    unfold _textToNumber
    simp [h]

/-- Concrete instantiation of `textToNumber_spec`: the `hundred`
multiplier clause at accumulator 7, the digit-token clause at `5th`,
and the zero-total clause at `abc`. -/
theorem textToNumber_spec_witness :
    textToNumberStep 7 ("hundred".toList) = (if 7 = 0 then 1 else 7) * 100
  ∧ textToNumberStep 0 ("5th".toList) = 0 + parseDigits (("5th".toList).filter Char.isDigit)
  ∧ _textToNumber "abc" = "abc" :=
  ⟨textToNumber_spec.2.1 7,
   textToNumber_spec.1 0 ("5th".toList) (by decide),
   textToNumber_spec.2.2.2.2.2.2.1 "abc" (by decide)⟩

/-- Skipping a block of non-matching keywords in the dispute table. -/
theorem disputeGo_append (t : String) :
    ∀ (pre rest : List (String × String)),
      (∀ p ∈ pre, containsSub t.data p.1.data = false) →
      disputeGo (pre ++ rest) t = disputeGo rest t := by
  intro pre
  induction pre with
  | nil => intro rest _; rfl
  | cons p pre' ih =>
    intro rest h
    obtain ⟨kw, ty⟩ := p
    have hkw : containsSub t.data kw.data = false := h (kw, ty) (List.mem_cons_self _ _)
    show (if containsSub t.data kw.data then ty else disputeGo (pre' ++ rest) t) = disputeGo rest t
    rw [hkw]
    simp only [Bool.false_eq_true, if_false]
    exact ih rest (fun q hq => h q (List.mem_cons_of_mem _ hq))

/-- C3: `_mapDisputeType` returns the category of the first keyword in
the fixed table order that occurs as a substring of the transcript, and
`others` when no keyword occurs; earlier table entries win over later
ones, as in the quoted example. -/
theorem mapDisputeType_spec :
    (∀ (t : String) (pre : List (String × String)) (kw cat : String)
       (post : List (String × String)),
       mappings = pre ++ (kw, cat) :: post →
       containsSub t.data kw.data = true →
       (∀ p ∈ pre, containsSub t.data p.1.data = false) →
       _mapDisputeType t = cat)
  ∧ (∀ t : String, (∀ p ∈ mappings, containsSub t.data p.1.data = false) →
       _mapDisputeType t = "others")
  ∧ _mapDisputeType "the goods were defective and payment delayed" = "goods_rejection" := by
  refine ⟨?_, ?_, by decide⟩
  · intro t pre kw cat post hsplit hkw hpre
    unfold _mapDisputeType
    rw [hsplit, disputeGo_append t pre _ hpre]
    show (if containsSub t.data kw.data then cat else disputeGo post t) = cat
    rw [hkw]
    simp
  · intro t h
    unfold _mapDisputeType
    have : disputeGo (mappings ++ []) t = disputeGo [] t := disputeGo_append t mappings [] h
    rw [List.append_nil] at this
    exact this

/-- Concrete instantiation of `mapDisputeType_spec`: the first table
entry wins on a transcript containing `goods`. -/
theorem mapDisputeType_spec_witness :
    _mapDisputeType "goods returned" = "goods_rejection" :=
  mapDisputeType_spec.1 "goods returned" [] "goods" "goods_rejection"
    (mappings.drop 1) rfl (by decide) (by intro p hp; cases hp)

/-- Skipping a block of non-matching names in the state list. -/
theorem stateGo_append (t : String) :
    ∀ (pre rest : List String),
      (∀ p ∈ pre, containsSub (lowerStr t).data p.data = false) →
      stateGo (pre ++ rest) t = stateGo rest t := by
  intro pre
  induction pre with
  | nil => intro rest _; rfl
  | cons st pre' ih =>
    intro rest h
    have hst : containsSub (lowerStr t).data st.data = false := h st (List.mem_cons_self _ _)
    show (if containsSub (lowerStr t).data st.data then String.mk (titleCase st.data)
          else stateGo (pre' ++ rest) t) = stateGo rest t
    rw [hst]
    simp only [Bool.false_eq_true, if_false]
    exact ih rest (fun q hq => h q (List.mem_cons_of_mem _ hq))

/-- C4: `_extractState` lower-cases the text, scans the fixed list of
exactly 33 state and union-territory names in list order, and returns
the first name contained in the text, title-cased; matching is
case-insensitive; with no match the original text is returned. -/
theorem extractState_spec :
    states.length = 33
  ∧ (∀ (t : String) (pre : List String) (st : String) (post : List String),
       states = pre ++ st :: post →
       containsSub (lowerStr t).data st.data = true →
       (∀ p ∈ pre, containsSub (lowerStr t).data p.data = false) →
       _extractState t = String.mk (titleCase st.data))
  ∧ (∀ t : String, (∀ st ∈ states, containsSub (lowerStr t).data st.data = false) →
       _extractState t = t)
  ∧ _extractState "WEST bengal" = "West Bengal"
  ∧ _extractState "filed in West Bengal court" = "West Bengal" := by
  refine ⟨by decide, ?_, ?_, by decide, by decide⟩
  · intro t pre st post hsplit hst hpre
    unfold _extractState
    rw [hsplit, stateGo_append t pre _ hpre]
    show (if containsSub (lowerStr t).data st.data then String.mk (titleCase st.data)
          else stateGo post t) = String.mk (titleCase st.data)
    rw [hst]
    simp
  · intro t h
    unfold _extractState
    have : stateGo (states ++ []) t = stateGo [] t := stateGo_append t states [] h
    rw [List.append_nil] at this
    exact this

/-- Concrete instantiation of `extractState_spec`: the first listed name
matched and title-cased. -/
theorem extractState_spec_witness :
    _extractState "andhra pradesh is home" = "Andhra Pradesh" :=
  (extractState_spec.2.1 "andhra pradesh is home" [] "andhra pradesh"
    (states.drop 1) rfl (by decide) (by intro p hp; cases hp)).trans (by decide)

/-- One controller transition preserves the listening-marker invariant. -/
theorem step_preserves_inv (e : Ev) (s : MgrState)
    (ih1 : s.isRecording = false → s.recordingMarks = [])
    (ih2 : s.recordingMarks.length ≤ 1) :
    ((step e s).isRecording = false → (step e s).recordingMarks = [])
    ∧ (step e s).recordingMarks.length ≤ 1 := by
  cases e with
  | start eo ao f =>
    show ((startRecording eo ao f s).isRecording = false →
            (startRecording eo ao f s).recordingMarks = [])
         ∧ (startRecording eo ao f s).recordingMarks.length ≤ 1
    cases hrec : s.isRecording with
    | true => simp [startRecording, hrec, stopRecording]
    | false =>
      have hm : s.recordingMarks = [] := ih1 hrec
      cases hfb : s.fallbackMode <;> cases hao : ao <;> cases heo : eo <;>
        cases hhr : s.hasRecognition <;>
          simp [startRecording, hrec, hfb, hao, heo, hhr, hm, stopRecording]
  | stop => exact ⟨fun _ => rfl, by simp [step, stopRecording]⟩
  | error c => exact ⟨fun _ => rfl, by simp [step, handleError, stopRecording]⟩
  | ended => exact ⟨fun _ => rfl, by simp [step, stopRecording]⟩
  | result t fin => cases fin <;> exact ⟨ih1, ih2⟩

/-- The listening-marker invariant holds in every reachable state. -/
theorem mgr_inv (s : MgrState) (h : Reachable s) :
    (s.isRecording = false → s.recordingMarks = []) ∧ s.recordingMarks.length ≤ 1 := by
  induction h with
  | init b => exact ⟨fun _ => rfl, by simp [mkInit]⟩
  | tr e h ih => exact step_preserves_inv e _ ih.1 ih.2

/-- C5: invoking `startRecording` while a session is active performs
exactly `stopRecording` (toggle semantics — the new session never
reaches the listening state), and in every reachable controller state at
most one mic control carries the listening marker, none when not
recording. -/
theorem startRecording_single_session :
    (∀ (s : MgrState) (eo ao : Bool) (f : String), s.isRecording = true →
       startRecording eo ao f s = stopRecording s)
  ∧ (∀ s : MgrState, Reachable s → s.recordingMarks.length ≤ 1)
  ∧ (∀ s : MgrState, Reachable s → s.isRecording = false → s.recordingMarks = []) := by
  refine ⟨?_, fun s h => (mgr_inv s h).2, fun s h => (mgr_inv s h).1⟩
  intro s eo ao f h
  unfold startRecording
  rw [h]
  simp

/-- Concrete instantiation of `startRecording_single_session`: a second
start while listening equals a plain stop, and a reachable state has at
most one marked control. -/
theorem startRecording_single_session_witness :
    startRecording true true "f2" (step (.start true true "f1") (mkInit true)) =
      stopRecording (step (.start true true "f1") (mkInit true))
  ∧ (step (.start true true "f1") (mkInit true)).recordingMarks.length ≤ 1 :=
  ⟨startRecording_single_session.1 _ true true "f2" rfl,
   startRecording_single_session.2.1 _ (Reachable.tr _ (Reachable.init true))⟩

/-- C9: `stopRecording` is idempotent, clears the listening marker from
all mic controls, and leaves the session stopped. -/
theorem stopRecording_idempotent :
    ∀ s : MgrState,
      stopRecording (stopRecording s) = stopRecording s
    ∧ (stopRecording s).recordingMarks = []
    ∧ (stopRecording s).isRecording = false :=
  fun _ => ⟨rfl, rfl, rfl⟩

/-- C7 (refutation of the claim as stated): after an engine start
failure from a clean live-mode state the session is stopped, but the
toast log holds only the prior listening notification — no user-visible
error notification accompanies the failure (the source only logs to the
console). -/
theorem engine_start_failure_counterexample :
    (startRecording false true "amount_field" (mkInit true)).isRecording = false
  ∧ (startRecording false true "amount_field" (mkInit true)).toasts =
      [("🎤 Listening…", "info")] := by
  decide

/-- C7 (amended): every live-engine error event is caught, mapped to its
user-visible message (`not-allowed`, `no-speech`, `network`, generic
otherwise) and followed by `stopRecording`; an engine start failure is
caught and routed to `stopRecording` but produces no user-visible
notification; no error path throws (every transition is a total
function of the state). -/
theorem error_handling_amended :
    (∀ (s : MgrState) (code : String),
       (handleError code s).isRecording = false
     ∧ (handleError code s).recordingMarks = []
     ∧ (handleError code s).toasts = s.toasts ++ [(errMsgFor code, "error")])
  ∧ errMsgFor "not-allowed" = "🔇 Microphone access denied. Please allow in browser settings."
  ∧ errMsgFor "no-speech" = "🔇 No speech detected. Try again."
  ∧ errMsgFor "network" = "🌐 Network error. Check connection."
  ∧ (∀ code : String, code ≠ "not-allowed" → code ≠ "no-speech" → code ≠ "network" →
       errMsgFor code = "Voice input error.")
  ∧ (∀ (s : MgrState) (ao : Bool) (f : String),
       s.isRecording = false → s.fallbackMode = false → s.hasRecognition = true →
       (startRecording false ao f s).isRecording = false
     ∧ (startRecording false ao f s).recordingMarks = []
     ∧ (startRecording false ao f s).toasts = s.toasts ++ [("🎤 Listening…", "info")]) := by
  refine ⟨fun s code => ⟨rfl, rfl, rfl⟩, rfl, rfl, rfl, ?_, ?_⟩
  · intro code h1 h2 h3
    unfold errMsgFor
    rw [if_neg h1, if_neg h2, if_neg h3]
  · intro s ao f h1 h2 h3
    unfold startRecording
    rw [h1, h2, h3]
    exact ⟨rfl, rfl, rfl⟩

/-- Concrete instantiation of `error_handling_amended`: the no-speech
mapping, the generic fallback message, and a start failure leaving no
marked control. -/
theorem error_handling_amended_witness :
    (handleError "no-speech" (mkInit true)).toasts =
      (mkInit true).toasts ++ [(errMsgFor "no-speech", "error")]
  ∧ errMsgFor "quota-exceeded" = "Voice input error."
  ∧ (startRecording false true "f" (mkInit true)).recordingMarks = [] :=
  ⟨(error_handling_amended.1 (mkInit true) "no-speech").2.2,
   error_handling_amended.2.2.2.2.1 "quota-exceeded" (by decide) (by decide) (by decide),
   (error_handling_amended.2.2.2.2.2 (mkInit true) true "f" rfl rfl rfl).2.1⟩

/-- A plain input field used as a concrete commit target. -/
def flds0 : Fld :=
  { value := "", isSelect := false, options := [], selectedIndex := -1, events := [] }

/-- C8 (refutation of the claim as stated): for the same transcript and
field, the fallback commit dispatches only the `input` event while the
live final commit dispatches `input` and `change`, so the two final
states differ. -/
theorem fallback_commit_counterexample :
    (fallbackTextCommit "5 lakh" .amount flds0).events = ["input"]
  ∧ (liveFinalCommit "5 lakh" .amount flds0).events = ["input", "change"]
  ∧ fallbackTextCommit "5 lakh" .amount flds0 ≠ liveFinalCommit "5 lakh" .amount flds0 := by
  decide

/-- C8 (amended): the fallback commit writes the same normalized value
and performs the same selection side effects as the live final commit,
but dispatches only the `input` event — appending the missing `change`
event reproduces the live path's event log exactly. -/
theorem fallback_commit_amended :
    ∀ (t : String) (ft : FieldType) (f : Fld),
      (fallbackTextCommit t ft f).value = (liveFinalCommit t ft f).value
    ∧ (fallbackTextCommit t ft f).selectedIndex = (liveFinalCommit t ft f).selectedIndex
    ∧ (fallbackTextCommit t ft f).options = (liveFinalCommit t ft f).options
    ∧ (fallbackTextCommit t ft f).events ++ ["change"] = (liveFinalCommit t ft f).events := by
  intro t ft f
  refine ⟨rfl, rfl, rfl, ?_⟩
  show ((_processTranscript t ft f).2.events ++ ["input"]) ++ ["change"] =
       (_processTranscript t ft f).2.events ++ ["input", "change"]
  rw [List.append_assoc]
  rfl

/-- `findOpt` finds nothing when no option satisfies the predicate. -/
theorem findOpt_none (p : String × String → Bool) :
    ∀ (l : List (String × String)) (i : Nat),
      (∀ o ∈ l, p o = false) → findOpt p l i = none := by
  intro l
  induction l with
  | nil => intro i _; rfl
  | cons o rest ih =>
    intro i h
    unfold findOpt
    rw [h o (List.mem_cons_self _ _)]
    simp only [Bool.false_eq_true, if_false]
    exact ih (i + 1) (fun q hq => h q (List.mem_cons_of_mem _ hq))

/-- C10: on a DisputeType transcript bound to a selection field none of
whose option values equals the mapped category, `_processTranscript`
leaves the field entirely unchanged — same `selectedIndex`, no `change`
event — while still returning the mapped category as the value to
write. -/
theorem disputeType_select_frame :
    ∀ (text : String) (f : Fld), f.isSelect = true →
      (∀ o ∈ f.options, o.1 ≠ _mapDisputeType (lowerStr text)) →
      _processTranscript text .disputeType f = (_mapDisputeType (lowerStr text), f) := by
  intro t f hsel hno
  have hfind : findOpt (fun o => o.1 == _mapDisputeType (lowerStr t)) f.options 0 = none :=
    findOpt_none _ f.options 0 (fun o ho => beq_eq_false_iff_ne.mpr (hno o ho))
  unfold _processTranscript
  rw [hsel]
  simp only [if_true, hfind]

/-- A selection field with no option for the `others` category. -/
def flds1 : Fld :=
  { value := "", isSelect := true, options := [("goods_rejection", "Goods Rejection")],
    selectedIndex := -1, events := [] }

/-- Concrete instantiation of `disputeType_select_frame`: an unmatched
category leaves the selection untouched and returns `others`. -/
theorem disputeType_select_frame_witness :
    _processTranscript "hello there" .disputeType flds1 = ("others", flds1) :=
  (disputeType_select_frame "hello there" flds1 rfl (by decide)).trans (by decide)

/-- C6 (evaluating the code on its failing trace): a single fallback
session auto-stops at exactly the 10-second cap with its tracks released
exactly once; but in the overlapping trace — start, manual toggle-stop
at 3 s (which never reaches the recorder), restart at 4 s — the first
session's timer stops the second session's recorder, and the first
recorder is left recording forever with its tracks never released, after
all scheduled timers have fired. -/
theorem fallback_track_release_bug :
    ((fbRun [(0, .click true), (10000, .timerFire)]).valid = true
     ∧ (fbRun [(0, .click true), (10000, .timerFire)]).recs =
         [{ recording := false, tracksStopped := 1 }])
  ∧ ((fbRun leakTrace).valid = true
     ∧ (fbRun leakTrace).pending = []
     ∧ (fbRun leakTrace).recs.get? 0 = some { recording := true, tracksStopped := 0 }
     ∧ (fbRun leakTrace).recs.get? 1 = some { recording := false, tracksStopped := 1 }) := by
  decide
